import Mathlib

/-!
Shallow embedding of the `asx::ArgumentParser` command-line argument parsing
engine (`src/source/argparse.cpp`, `src/include/asx/argparse.hpp`).

Conventions:
* C++ strings are Lean `String`s; spans/vectors are Lean `List`s.
* `ASX_FAIL` / `ASX_CHECK` abort the process (`asx::exit(1)` in
  `src/include/asx/assert.hpp`); a computation that can abort is embedded as
  `Except String _`, the error carrying the diagnostic message.
* `asx::format` calls are reproduced as string concatenations of the same
  format strings.
* The per-token loop of `parse_args_no_execute_filename` does not structurally
  decrease (the iterator is only advanced when a definition stays active), so
  it is embedded with explicit fuel; `none` means the fuel ran out.
* `uint8_t` casts are embedded as `% 256`.
-/

/-- `ArgumentParser::ArgumentDefinition::MultiValueMode` (referenced throughout
`argparse.cpp`; `variable` is rendered `variableUpTo` because `variable` is a
Lean keyword). -/
inductive MultiValueMode where
  | fixed
  | variableUpTo
  | one_or_more
deriving DecidableEq, Repr

/-- `ArgumentParser::ArgumentDefinition` (argparse.hpp lines 28-66 plus the
`multi_value_mode`/`nvals` fields used by argparse.cpp). `nvals` is a
`uint8_t` in the source, so it is always `< 256` there; we carry it as `Nat`. -/
structure ArgumentDefinition where
  label : String
  names : List String
  metalabel : String
  description : String
  is_optional : Bool
  is_positional : Bool
  multi_value_mode : MultiValueMode
  nvals : Nat
deriving DecidableEq, Repr

/-- `ArgumentParser::ArgumentDefinition::is_enough_values` (argparse.cpp
lines 125-138). The argument is the value count already cast to `uint8_t`
by the caller. -/
def ArgumentDefinition.is_enough_values (d : ArgumentDefinition) (count : Nat) : Bool :=
  match d.multi_value_mode with
  | .fixed => count ≥ d.nvals
  | .variableUpTo => true
  | .one_or_more => count ≥ 1

/-- Number of leading `'-'` characters, i.e. `find_first_not_of('-')` when that
is not `npos`. -/
def countDashes : List Char → Nat
  | [] => 0
  | c :: r => if c = '-' then countDashes r + 1 else 0

/-- `check_valid_option_name` (argparse.cpp lines 143-196), fused with its
error-message output parameter: `none` means the name is valid, `some msg`
carries the message written to `*_outErrorMessage` (with no pretext, as in
the parse loop call sites). -/
def check_option_name_error (s : String) : Option String :=
  let l := s.data
  if ¬ (l.head? = some '-') then
    some ("Invalid option name \"" ++ s ++ "\", must start with '-' or '--'")
  else
    let textStartPos := countDashes l
    if textStartPos = l.length then
      some ("Invalid option name \"" ++ s ++ "\", must contain text after '-' or '--'")
    else if textStartPos > 2 then
      some ("Invalid option name \"" ++ s ++ "\", initial characters must only be '-' or '--'")
    else if textStartPos = 1 ∧ l.length > 2 then
      some ("Invalid option name \"" ++ s ++
        "\", options starting with '-' must be followed by only a single character")
    else
      none

/-- `check_valid_option_name` used as a plain predicate (the
`_outErrorMessage = nullptr` call sites). -/
def check_valid_option_name (s : String) : Bool :=
  (check_option_name_error s).isNone

/-- `_arg.starts_with('-')` as used to classify a token (argparse.cpp line 451). -/
def startsWithDash (s : String) : Bool :=
  s.data.head? = some '-'

/-- The name-joining loop of `resolve_argument_metalabels` (argparse.cpp
lines 656-674): concatenate the names with `'|'` separators. -/
def joinNames : List String → String
  | [] => ""
  | n :: rest => rest.foldl (fun acc m => acc ++ "|" ++ m) n

/-- One iteration of the loop body of `resolve_argument_metalabels`
(argparse.cpp lines 648-690): fill in a missing metalabel from the names,
else the label, else (for a positional) a synthesized `arg<N>`; a definition
with no metalabel, names, or label that is not positional trips
`ASX_CHECK(_definition.is_positional)`. -/
def resolveOne (ctr : Nat) (d : ArgumentDefinition) : Except String ArgumentDefinition :=
  if d.metalabel = "" then
    if d.names ≠ [] then .ok { d with metalabel := joinNames d.names }
    else if d.label ≠ "" then .ok { d with metalabel := d.label }
    else if d.is_positional then .ok { d with metalabel := "arg" ++ toString ctr }
    else .error "ASX_CHECK condition failed _definition.is_positional"
  else .ok d

/-- The loop of `resolve_argument_metalabels` with the running positional
counter (argparse.cpp lines 644-698). -/
def resolveMeta : Nat → List ArgumentDefinition → Except String (List ArgumentDefinition)
  | _, [] => .ok []
  | ctr, d :: rest =>
    match resolveOne ctr d with
    | .error e => .error e
    | .ok d' =>
      match resolveMeta (if d.is_positional then ctr + 1 else ctr) rest with
      | .error e => .error e
      | .ok rest' => .ok (d' :: rest')

/-- `ArgumentParser::resolve_argument_metalabels` (argparse.cpp lines 644-698),
returning the updated definition list (the C++ mutates in place). -/
def resolve_argument_metalabels (defs : List ArgumentDefinition) :
    Except String (List ArgumentDefinition) :=
  resolveMeta 0 defs

/-- Association-list model of the `std::unordered_map<std::string, const
ArgumentDefinition*>` name map: first-match lookup (keys are unique, since a
colliding insert aborts). -/
def lookupName : List (String × ArgumentDefinition) → String → Option ArgumentDefinition
  | [], _ => none
  | (k, v) :: r, n => if k = n then some v else lookupName r n

/-- The per-name insertion loop for a named definition (argparse.cpp
lines 358-368): `insert_or_assign` reporting a collision trips `ASX_FAIL`. -/
def insertNames (d : ArgumentDefinition) (m : List (String × ArgumentDefinition)) :
    List String → Except String (List (String × ArgumentDefinition))
  | [] => .ok m
  | n :: rest =>
    if (lookupName m n).isSome then
      .error ("Multiple arguments with the name \"" ++ n ++ "\"")
    else
      insertNames d (m ++ [(n, d)]) rest

/-- The lookup structures built by the "Prepare helper data structures" block
of `parse_args_no_execute_filename` (argparse.cpp lines 294-371). -/
structure SetupData where
  positionals : List ArgumentDefinition
  numRequired : Nat
  nameMap : List (String × ArgumentDefinition)
  helpArgumentDefinition : Option ArgumentDefinition
deriving Repr

/-- `SetupData` plus the block-local `_foundOptionalPositional` tracker. -/
structure SetupState extends SetupData where
  foundOptionalPositional : Option ArgumentDefinition
deriving Repr

/-- The positional branch of the "Prepare helper data structures" loop body
(argparse.cpp lines 312-340): count required positionals, reject a required
positional after an optional one, track the first optional positional, and
append to the positional list. -/
def setupStepPositional (st : SetupState) (d : ArgumentDefinition) : Except String SetupState :=
  let numReq := if ¬ d.is_optional then st.numRequired + 1 else st.numRequired
  match st.foundOptionalPositional with
  | some p =>
    if ¬ d.is_optional then
      .error ("Positional argument \"" ++ d.metalabel ++
        "\" must be optional as it follows an optional positional argument \"" ++
        p.metalabel ++ "\"")
    else
      .ok { st with numRequired := numReq, positionals := st.positionals ++ [d] }
  | none =>
    let fop := if d.is_optional then some d else st.foundOptionalPositional
    .ok { st with numRequired := numReq, positionals := st.positionals ++ [d],
                  foundOptionalPositional := fop }

/-- The help-definition recognition step for a named definition (argparse.cpp
lines 350-355): a definition whose first name is `-h` or `--help` becomes the
help definition; a second such definition trips
`ASX_CHECK(!_helpArgumentDefinition)`. `names.front()` is embedded as
`names.head?`. -/
def recognizeHelp (st : SetupState) (d : ArgumentDefinition) :
    Except String (Option ArgumentDefinition) :=
  if d.names.head? = some "-h" ∨ d.names.head? = some "--help" then
    match st.helpArgumentDefinition with
    | some _ => .error "ASX_CHECK condition failed !_helpArgumentDefinition"
    | none => .ok (some d)
  else .ok st.helpArgumentDefinition

/-- The named branch of the "Prepare helper data structures" loop body
(argparse.cpp lines 341-369): named arguments must be optional, the help
definition is recognized by its first name, and every name is inserted into
the name map. -/
def setupStepNamed (st : SetupState) (d : ArgumentDefinition) : Except String SetupState :=
  if ¬ d.is_optional then
    .error ("Named argument \"" ++ d.label ++ "\" must be optional")
  else
    match recognizeHelp st d with
    | .error e => .error e
    | .ok hd =>
      match insertNames d st.nameMap d.names with
      | .error e => .error e
      | .ok m => .ok { st with helpArgumentDefinition := hd, nameMap := m }

/-- One iteration of the "Prepare helper data structures" loop (argparse.cpp
lines 310-370) over a single definition. -/
def setupStep (st : SetupState) (d : ArgumentDefinition) : Except String SetupState :=
  if d.is_positional then setupStepPositional st d else setupStepNamed st d

/-- The full "Prepare helper data structures" loop (argparse.cpp
lines 306-371). -/
def setupLoop (st : SetupState) : List ArgumentDefinition → Except String SetupState
  | [] => .ok st
  | d :: rest =>
    match setupStep st d with
    | .error e => .error e
    | .ok st' => setupLoop st' rest

/-- Builds the lookup structures for a resolved definition list. -/
def setupStructures (defs : List ArgumentDefinition) : Except String SetupData :=
  match setupLoop ⟨⟨[], 0, [], none⟩, none⟩ defs with
  | .error e => .error e
  | .ok st => .ok st.toSetupData

/-- `ArgumentParser::ParseResult::ParsedArgumentInfo` (argparse.hpp
lines 219-231). -/
structure ParsedArgumentInfo where
  offset : Nat
  count : Nat
deriving DecidableEq, Repr

/-- `ArgumentParser::ParsedValue`: a type-erased slot that is either absent or
holds captured text (argparse.hpp lines 74-204; only text is ever stored). -/
def ParsedValue := Option String
deriving instance DecidableEq, Repr for ParsedValue

/-- `ArgumentParser::ParseResult` (argparse.hpp lines 212-388). -/
structure ParseResult where
  parsed_values : List ParsedValue
  parsed_arguments : List ParsedArgumentInfo
  labelled_argument_positions : List (String × Nat)
  num_positional_args : Nat
  message : String
  should_exit : Bool
  error_occured : Bool
deriving DecidableEq, Repr

/-- The private `ParseResult(bool, bool, std::string)` constructor
(argparse.hpp lines 336-338): flags and message only, empty storages. -/
def ParseResult.mk3 (se err : Bool) (msg : String) : ParseResult :=
  { parsed_values := [], parsed_arguments := [], labelled_argument_positions := [],
    num_positional_args := 0, message := msg, should_exit := se, error_occured := err }

/-- `ArgumentParser::ParsedArgument`: a view over a window of parsed values
(argparse.hpp lines 393-522), embedded as the list of viewed values. -/
structure ParsedArgument where
  values : List ParsedValue
deriving DecidableEq, Repr

/-- `ParsedArgument::value_count`. -/
def ParsedArgument.value_count (a : ParsedArgument) : Nat := a.values.length

/-- `ParsedArgument::has_value`. -/
def ParsedArgument.has_value (a : ParsedArgument) : Bool := ¬ a.values.isEmpty

/-- Association-list lookup standing in for
`labelled_argument_positions_.at(_label)`. -/
def lookupLabel : List (String × Nat) → String → Option Nat
  | [], _ => none
  | (k, v) :: r, n => if k = n then some v else lookupLabel r n

/-- `ArgumentParser::ParseResult::get` (argparse.cpp lines 11-32): lookup of
the label in the labelled-position map (`.at` throws `std::out_of_range` on a
missing key), then the `(offset, count)` record, then the value window. -/
def ParseResult.get (r : ParseResult) (label : String) : Except String ParsedArgument :=
  match lookupLabel r.labelled_argument_positions label with
  | none => .error "std::out_of_range"
  | some pos =>
    match r.parsed_arguments.get? pos with
    | none => .error "std::out_of_range"
    | some info =>
      .ok ⟨(r.parsed_values.drop info.offset).take info.count⟩

/-- The loop-local `RawArgument` record of `parse_args_no_execute_filename`
(argparse.cpp lines 389-400). -/
structure RawArgument where
  definition : Option ArgumentDefinition
  name : String
  values : List String
deriving DecidableEq, Repr

/-- `RawArgument::clear` (argparse.cpp lines 395-399): resets the definition
pointer and the values, `name` is left as-is. -/
def RawArgument.clear (r : RawArgument) : RawArgument :=
  { r with definition := none, values := [] }

/-- The mutable state of the per-token parse loop (argparse.cpp
lines 404-412, 415): finished captures, the capture in progress, the count of
positional slots consumed, and the token iterator as an index. -/
structure LoopState where
  finished : List RawArgument
  parsing : RawArgument
  numParsedPos : Nat
  it : Nat
deriving DecidableEq, Repr

/-- The initial loop state (argparse.cpp lines 405-412). -/
def initLoopState : LoopState :=
  { finished := [], parsing := { definition := none, name := "", values := [] },
    numParsedPos := 0, it := 0 }

/-- The "expects N values but only K were provided" diagnostic (argparse.cpp
lines 433-436 and 519-522). -/
def expectsValuesMsg (name : String) (nvals count : Nat) : String :=
  "Argument \"" ++ name ++ "\" expects " ++ toString nvals ++
    " values but only " ++ toString count ++ " were provided"

/-- One iteration of the per-token loop of `parse_args_no_execute_filename`
(argparse.cpp lines 415-557). `.inl` is a `return` out of the loop (carrying
the finished captures, which the C++ drops, and the returned `ParseResult`);
`.inr` continues with the next state. The iterator is advanced at the bottom
only when a definition is still being parsed (lines 552-556). -/
def parseStep (su : SetupData) (args : List String) (s : LoopState) :
    (List RawArgument × ParseResult) ⊕ LoopState :=
  match args.get? s.it with
  | none =>
    -- Handle end of args (lines 418-443).
    match s.parsing.definition with
    | some d =>
      if d.is_enough_values (s.parsing.values.length % 256) then
        .inl (s.finished ++ [s.parsing], ParseResult.mk3 false false "")
      else
        .inl (s.finished, ParseResult.mk3 true true
          (expectsValuesMsg s.parsing.name d.nvals s.parsing.values.length))
    | none => .inl (s.finished, ParseResult.mk3 false false "")
  | some arg =>
    -- Start parsing a new definition if none is active (lines 448-497).
    let started : (List RawArgument × ParseResult) ⊕ LoopState :=
      match s.parsing.definition with
      | some _ => .inr s
      | none =>
        if startsWithDash arg then
          match check_option_name_error arg with
          | some msg => .inl (s.finished, ParseResult.mk3 true true msg)
          | none =>
            match lookupName su.nameMap arg with
            | none =>
              .inl (s.finished, ParseResult.mk3 true true
                ("Found unrecognized option \"" ++ arg ++ "\""))
            | some d =>
              .inr { s with parsing := { s.parsing with definition := some d, name := arg } }
        else
          if s.numParsedPos ≥ su.positionals.length then
            .inl (s.finished, ParseResult.mk3 true true
              ("Got too many positional arguments \"" ++ arg ++
                "\", expected at least " ++ toString su.numRequired))
          else
            match su.positionals.get? s.numParsedPos with
            | none => .inl (s.finished, ParseResult.mk3 true true "")
            | some d =>
              .inr { s with numParsedPos := s.numParsedPos + 1,
                            parsing :=
                              { s.parsing with definition := some d, name := d.metalabel } }
    match started with
    | .inl r => .inl r
    | .inr s1 =>
      -- Handle writing values to the definition (lines 499-550).
      let written : (List RawArgument × ParseResult) ⊕ LoopState :=
        match s1.parsing.definition with
        | none => .inr s1
        | some d =>
          if d.multi_value_mode = MultiValueMode.fixed ∧ d.nvals = s1.parsing.values.length then
            .inr { s1 with finished := s1.finished ++ [s1.parsing],
                           parsing := s1.parsing.clear }
          else if check_valid_option_name arg then
            if d.multi_value_mode = MultiValueMode.fixed then
              .inl (s1.finished, ParseResult.mk3 true true
                (expectsValuesMsg s1.parsing.name d.nvals s1.parsing.values.length))
            else if d.multi_value_mode = MultiValueMode.one_or_more ∧ s1.parsing.values = [] then
              .inl (s1.finished, ParseResult.mk3 true true
                ("Argument \"" ++ s1.parsing.name ++
                  "\" expects at least one value but none were provided"))
            else
              .inr { s1 with finished := s1.finished ++ [s1.parsing],
                             parsing := s1.parsing.clear }
          else
            .inr { s1 with parsing :=
                             { s1.parsing with values := s1.parsing.values ++ [arg] } }
      match written with
      | .inl r => .inl r
      | .inr s2 =>
        -- Continue to the next argument only if one is set to be parsed.
        .inr (if s2.parsing.definition.isSome then { s2 with it := s2.it + 1 } else s2)

/-- Fuel-indexed runner for the per-token loop: `none` means the loop did not
finish within `fuel` iterations. -/
def parseLoop (su : SetupData) (args : List String) :
    Nat → LoopState → Option (List RawArgument × ParseResult)
  | 0, _ => none
  | fuel + 1, s =>
    match parseStep su args s with
    | .inl r => some r
    | .inr s' => parseLoop su args fuel s'

/-- `ArgumentParser::generate_help_text` (argparse.cpp lines 700-726) over the
parser name and (resolved) definitions. -/
def generate_help_text (progName : String) (defs : List ArgumentDefinition) : String :=
  "Usage:\n\t" ++ progName ++ " " ++
    String.join (defs.map (fun d =>
      if d.is_optional then "[" ++ d.metalabel ++ "]" else "<" ++ d.metalabel ++ ">"))

/-- `ArgumentParser::parse_args_no_execute_filename` (argparse.cpp
lines 285-562), additionally exposing the loop's finished captures (which the
C++ accumulates and then drops on the success path). Outcomes:
`.error e` models an `ASX_FAIL`/`ASX_CHECK` process abort, `.ok none` means
the fuel ran out, `.ok (some (captures, result))` is a normal return. -/
def parse_args_internal (progName : String) (defs : List ArgumentDefinition)
    (fuel : Nat) (args : List String) :
    Except String (Option (List RawArgument × ParseResult)) :=
  match resolve_argument_metalabels defs with
  | .error e => .error e
  | .ok rdefs =>
    match setupStructures rdefs with
    | .error e => .error e
    | .ok su =>
      -- Help short-circuit (argparse.cpp lines 373-386).
      let helpHit :=
        match su.helpArgumentDefinition with
        | some hd => args.any (fun a => hd.names.contains a)
        | none => false
      if helpHit then
        .ok (some ([], ParseResult.mk3 true false (generate_help_text progName rdefs)))
      else
        .ok (parseLoop su args fuel initLoopState)

/-- `ArgumentParser::parse_args_no_execute_filename`, returning exactly what
the C++ function returns (the `ParseResult` constructed at the return sites,
with the finished captures discarded as at argparse.cpp line 561). -/
def parse_args_no_execute_filename (progName : String) (defs : List ArgumentDefinition)
    (fuel : Nat) (args : List String) : Except String (Option ParseResult) :=
  match parse_args_internal progName defs fuel args with
  | .error e => .error e
  | .ok none => .ok none
  | .ok (some (_, r)) => .ok (some r)

/-- `ArgumentParser::parse_args(std::span)` (argparse.cpp lines 563-595).
Modelled from the spec: the executable-path canonicalization and comparison
(`asx::get_current_executable_path`, `std::filesystem::weakly_canonical`) is
an external collaborator (spec §1, §4.7) and is passed in as the predicate
`isExecutedFilepath` deciding whether the first token resolves to the running
executable's path. `_args.front()` on an empty span is out of bounds, embedded
as the `none` outcome. -/
def parse_args (progName : String) (defs : List ArgumentDefinition)
    (isExecutedFilepath : String → Bool) (fuel : Nat) (args : List String) :
    Option (Except String (Option ParseResult)) :=
  match args with
  | [] => none
  | first :: rest =>
    some (parse_args_no_execute_filename progName defs fuel
      (if isExecutedFilepath first then rest else first :: rest))

/-- The default `-h`/`--help` definition added by every constructor
(`ArgumentParser::define_default_arguments`, argparse.cpp lines 633-642):
label `"help"`, names `-h` and `--help`, named hence optional, `set_nargs(0)`
hence `fixed` with `nvals = 0`. -/
def helpDefinition : ArgumentDefinition :=
  { label := "help", names := ["-h", "--help"], metalabel := "",
    description := "Displays the help message",
    is_optional := true, is_positional := false,
    multi_value_mode := .fixed, nvals := 0 }

/-- The `helpDefinition` after metalabel resolution (its metalabel becomes the
`'|'`-joined names). -/
def resolvedHelpDefinition : ArgumentDefinition :=
  { helpDefinition with metalabel := "-h|--help" }

/-- The required positional argument labelled `"name"` with arity `Fixed(1)`
and no declared name, from the end-to-end scenario of the spec (§8). -/
def nameDefinition : ArgumentDefinition :=
  { label := "name", names := [], metalabel := "", description := "",
    is_optional := false, is_positional := true,
    multi_value_mode := .fixed, nvals := 1 }

/-- The optional named argument labelled `"count"` with name `--count` and
arity `Fixed(1)`, from the end-to-end scenario of the spec (§8). -/
def countDefinition : ArgumentDefinition :=
  { label := "count", names := ["--count"], metalabel := "", description := "",
    is_optional := true, is_positional := false,
    multi_value_mode := .fixed, nvals := 1 }

/-- The end-to-end parser of the spec (§8): the default help definition plus
the `"name"` positional and the `"count"` named argument. -/
def endToEndDefs : List ArgumentDefinition :=
  [helpDefinition, nameDefinition, countDefinition]

/-- The setup structures computed for the default parser (help definition
only) after metalabel resolution. -/
def defaultSetup : SetupData :=
  { positionals := [], numRequired := 0,
    nameMap := [("-h", resolvedHelpDefinition), ("--help", resolvedHelpDefinition)],
    helpArgumentDefinition := some resolvedHelpDefinition }
/-- A user-defined flag-style named argument: optional, name `-v`,
`set_nargs(0)` hence `fixed` arity with `nvals = 0`. -/
def verboseDefinition : ArgumentDefinition :=
  { label := "verbose", names := ["-v"], metalabel := "", description := "",
    is_optional := true, is_positional := false,
    multi_value_mode := .fixed, nvals := 0 }
/-- The parser of claim C2's counterexample: help plus the `-v` flag. -/
def c2Defs : List ArgumentDefinition :=
  [helpDefinition, verboseDefinition]
/-- `verboseDefinition` after metalabel resolution. -/
def resolvedVerboseDefinition : ArgumentDefinition :=
  { verboseDefinition with metalabel := "-v" }
/-- The setup structures computed for `c2Defs` after resolution. -/
def c2Setup : SetupData :=
  { positionals := [], numRequired := 0,
    nameMap := [("-h", resolvedHelpDefinition), ("--help", resolvedHelpDefinition),
                ("-v", resolvedVerboseDefinition)],
    helpArgumentDefinition := some resolvedHelpDefinition }
/-- The spec's wording of option-name validity (§4.1): starts with the marker
character `'-'`, has at least one character after the leading marker(s), has
at most two leading markers, and with exactly one leading marker is followed
by exactly one character. -/
def spec_option_name_valid (s : String) : Prop :=
  s.data.head? = some '-' ∧
  countDashes s.data < s.data.length ∧
  countDashes s.data ≤ 2 ∧
  (countDashes s.data = 1 → s.data.length = 2)
/-- The optional positional definition of the C8 witness. -/
def c8OptionalPositional : ArgumentDefinition :=
  { label := "a", names := [], metalabel := "", description := "",
    is_optional := true, is_positional := true,
    multi_value_mode := .variableUpTo, nvals := 2 }
/-- The required positional definition of the C8 witness. -/
def c8RequiredPositional : ArgumentDefinition :=
  { label := "b", names := [], metalabel := "", description := "",
    is_optional := false, is_positional := true,
    multi_value_mode := .fixed, nvals := 1 }

/-- The parser of claim C3: the default help definition plus one required
positional with arity `Fixed(1)`. -/
def c3Defs : List ArgumentDefinition :=
  [helpDefinition, nameDefinition]
/-- A positional definition with arity `VariableUpTo(1)`, labelled `"files"`. -/
def filesDefinition : ArgumentDefinition :=
  { label := "files", names := [], metalabel := "", description := "",
    is_optional := false, is_positional := true,
    multi_value_mode := .variableUpTo, nvals := 1 }
/-- A required positional definition with arity `Fixed(1)`, labelled `"out"`. -/
def outDefinition : ArgumentDefinition :=
  { label := "out", names := [], metalabel := "", description := "",
    is_optional := false, is_positional := true,
    multi_value_mode := .fixed, nvals := 1 }
/-- The parser of claim C4: help, then `files : VariableUpTo(1)`, then
`out : Fixed(1)`. -/
def c4Defs : List ArgumentDefinition :=
  [helpDefinition, filesDefinition, outDefinition]

/-- C1: the spec requires `parse(["alice", "--count", "3"])` on the end-to-end
parser to succeed with `get("name") = ["alice"]` and `get("count") = ["3"]`.
The code instead fails: after the positional capture closes at the `--count`
token, the same token is reprocessed, re-selects the `count` definition, and
is then immediately re-examined as a value position, where being option-shaped
with a `Fixed` definition active produces the "expects 1 values but only 0
were provided" error; moreover no code path ever copies the finished captures
into the `ParseResult`, so both labels raise `std::out_of_range`. -/
theorem c1_end_to_end_dropped :
    (parse_args_no_execute_filename "prog" endToEndDefs 10 ["alice", "--count", "3"]).map
        (Option.map (fun r => (r.error_occured, r.message, r.get "name", r.get "count"))) =
      .ok (some (true, "Argument \"--count\" expects 1 values but only 0 were provided",
        Except.error "std::out_of_range", Except.error "std::out_of_range")) := rfl

/-- C3: the spec requires parsing `[]` against a required `Fixed(1)` positional
to report `error() = true` with a message naming the missing positional. The
code returns a success result with an empty message: the token loop ends
without ever activating the positional, and there is no end-of-parse check
that all required positionals were satisfied (argparse.cpp line 561 returns
`ParseResult(false, false)`). -/
theorem c3_missing_required_positional_silent :
    parse_args_no_execute_filename "prog" c3Defs 5 [] =
      .ok (some (ParseResult.mk3 false false "")) := rfl

/-- C4: the spec says a `VariableUpTo(N)` positional consumes at most `N`
tokens, transferring the excess to later positional slots. In the code the
stored maximum (`nvals`) is never consulted while capturing: the `variable`
mode appends every following non-option token, so `files` (maximum 1)
captures both `"x"` and `"y"`, the `out` slot is never activated, and the
parse still returns a non-error result. -/
theorem c4_variable_arity_uncapped :
    (parse_args_internal "prog" c4Defs 8 ["x", "y"]).map
        (Option.map (fun p => (p.1.map (fun ra => (ra.name, ra.values)), p.2.error_occured))) =
      .ok (some ([("files", ["x", "y"])], false)) := rfl

/-- C5: the spec says `get` raises a lookup error only for labels never
registered on the parser, and returns an empty-but-valid view for a
registered optional argument that was not supplied. After parsing
`["alice"]` with the end-to-end parser, `get "bogus"` (never registered)
raises `std::out_of_range` as specified — but so does `get "count"`
(registered, optional, unsupplied), because the parse never assembles any
capture into the result and the label map is always empty. -/
theorem c5_get_registered_label_raises :
    (parse_args_no_execute_filename "prog" endToEndDefs 5 ["alice"]).map
        (Option.map (fun r => (r.error_occured, r.get "bogus", r.get "count"))) =
      .ok (some (false, Except.error "std::out_of_range",
        Except.error "std::out_of_range")) := rfl

/-- C6: for any definition set whose resolution and setup validation succeed
and whose recognized help definition contains the token `t` among its names
(for the default parser, `t` is `"-h"` or `"--help"`), any input containing
`t` short-circuits: the parse returns `should_exit = true`, `error = false`,
and the non-empty generated help text, before any token-level validation. -/
theorem c6_help_short_circuit (progName : String) (defs rdefs : List ArgumentDefinition)
    (su : SetupData) (hd : ArgumentDefinition) (fuel : Nat) (args : List String) (t : String)
    (h1 : resolve_argument_metalabels defs = .ok rdefs)
    (h2 : setupStructures rdefs = .ok su)
    (h3 : su.helpArgumentDefinition = some hd)
    (h4 : t ∈ hd.names) (h5 : t ∈ args) :
    parse_args_no_execute_filename progName defs fuel args =
      .ok (some (ParseResult.mk3 true false (generate_help_text progName rdefs))) ∧
    generate_help_text progName rdefs ≠ "" := by
  have hany : args.any (fun a => hd.names.contains a) = true :=
    List.any_eq_true.mpr ⟨t, h5, List.elem_iff.mpr h4⟩
  constructor
  · simp only [parse_args_no_execute_filename, parse_args_internal, h1, h2, h3, hany,
      if_true]
  · intro hcontra
    have hlen : (generate_help_text progName rdefs).length = 0 := by rw [hcontra]; rfl
    have husage : ("Usage:\n\t" : String).length = 8 := rfl
    simp only [generate_help_text, String.length_append, husage] at hlen
    omega

/-- Witness for C6: the default parser on input `["-h"]`. -/
theorem c6_help_short_circuit_witness :
    parse_args_no_execute_filename "prog" [helpDefinition] 1 ["-h"] =
      .ok (some (ParseResult.mk3 true false
        (generate_help_text "prog" [resolvedHelpDefinition]))) ∧
    generate_help_text "prog" [resolvedHelpDefinition] ≠ "" :=
  c6_help_short_circuit "prog" [helpDefinition] [resolvedHelpDefinition]
    defaultSetup resolvedHelpDefinition 1 ["-h"] "-h" rfl rfl rfl
    (by decide) (by decide)

/-- On input `["-v"]` the token loop never advances: with no active definition
the token `-v` re-selects `verboseDefinition`, which (being `Fixed(0)`) closes
immediately in the same iteration, so the iterator is not incremented and the
identical situation recurs. No amount of fuel finishes the loop. -/
theorem c2_loop_stuck : ∀ (fuel : Nat) (fin : List RawArgument) (nm : String),
    parseLoop c2Setup ["-v"] fuel
      ⟨fin, ⟨none, nm, []⟩, 0, 0⟩ = none := by
  intro fuel
  induction fuel with
  | zero => intro fin nm; rfl
  | succ n ih =>
    intro fin nm
    have hstep : parseLoop c2Setup ["-v"] (n + 1) ⟨fin, ⟨none, nm, []⟩, 0, 0⟩ =
        parseLoop c2Setup ["-v"] n
          ⟨fin ++ [⟨some resolvedVerboseDefinition, "-v", []⟩], ⟨none, "-v", []⟩, 0, 0⟩ := rfl
    rw [hstep]
    exact ih _ _

/-- C2: the spec requires every parse over a setup-accepted definition set to
terminate in time proportional to the token count. For the setup-accepted
parser `c2Defs` (help plus a `Fixed(0)` flag `-v`) and the one-token input
`["-v"]`, the loop revisits the same token forever: for every fuel bound the
embedded loop fails to finish, so the C++ `for` loop never exits. -/
theorem c2_parse_nonterminating : ∀ fuel : Nat,
    parse_args_no_execute_filename "prog" c2Defs fuel ["-v"] = .ok none := by
  intro fuel
  have h0 : parse_args_internal "prog" c2Defs fuel ["-v"] =
      .ok (parseLoop c2Setup ["-v"] fuel initLoopState) := rfl
  have hl : parseLoop c2Setup ["-v"] fuel initLoopState = none := c2_loop_stuck fuel [] ""
  simp only [parse_args_no_execute_filename, h0, hl]

/-- The leading-dash count never exceeds the string length. -/
theorem countDashes_le (l : List Char) : countDashes l ≤ l.length := by
  induction l with
  | nil => simp [countDashes]
  | cons c r ih =>
    simp only [countDashes, List.length_cons]
    split <;> omega

/-- C7: the validity predicate `check_valid_option_name` accepts a string
exactly when it starts with `'-'`, contains at least one character after the
leading markers, has at most two leading markers, and, with exactly one
leading marker, consists of that marker followed by exactly one character. -/
theorem c7_option_name_predicate (s : String) :
    check_valid_option_name s = true ↔ spec_option_name_valid s := by
  have hle := countDashes_le s.data
  unfold check_valid_option_name check_option_name_error spec_option_name_valid
  dsimp only
  split_ifs with h1 h2 h3 h4 <;> simp_all <;> omega

/-- Metalabel resolution of one definition leaves its positional/optional
flags unchanged. -/
theorem resolveOne_flags (ctr : Nat) (d d' : ArgumentDefinition)
    (h : resolveOne ctr d = .ok d') :
    d'.is_positional = d.is_positional ∧ d'.is_optional = d.is_optional := by
  unfold resolveOne at h
  split_ifs at h <;> (injection h with h; subst h; exact ⟨rfl, rfl⟩)

/-- Metalabel resolution preserves, position by position, the
positional/optional flags of the definition list. -/
theorem resolveMeta_get_flags : ∀ (ctr : Nat) (defs rdefs : List ArgumentDefinition),
    resolveMeta ctr defs = .ok rdefs → ∀ k,
    (rdefs.get? k).map (fun d => (d.is_positional, d.is_optional)) =
      (defs.get? k).map (fun d => (d.is_positional, d.is_optional)) := by
  intro ctr defs
  induction defs generalizing ctr with
  | nil =>
    intro rdefs h k
    unfold resolveMeta at h
    injection h with h
    subst h
    rfl
  | cons d rest ih =>
    intro rdefs h k
    unfold resolveMeta at h
    cases hro : resolveOne ctr d with
    | error e => rw [hro] at h; cases h
    | ok d' =>
      rw [hro] at h
      cases hrm : resolveMeta (if d.is_positional then ctr + 1 else ctr) rest with
      | error e => rw [hrm] at h; cases h
      | ok rest' =>
        rw [hrm] at h
        injection h with h
        subst h
        cases k with
        | zero =>
          obtain ⟨hp, ho⟩ := resolveOne_flags ctr d d' hro
          simp [hp, ho]
        | succ k => exact ih _ rest' hrm k

/-- Branch equation: optional positional with the tracker already set. -/
theorem setupStepPositional_opt_some (st : SetupState) (d p : ArgumentDefinition)
    (hf : st.foundOptionalPositional = some p) (ho : d.is_optional = true) :
    setupStepPositional st d = .ok { st with positionals := st.positionals ++ [d] } := by
  simp [setupStepPositional, hf, ho]

/-- Branch equation: required positional after the tracker is set fails. -/
theorem setupStepPositional_req_some (st : SetupState) (d p : ArgumentDefinition)
    (hf : st.foundOptionalPositional = some p) (ho : d.is_optional = false) :
    setupStepPositional st d = .error ("Positional argument \"" ++ d.metalabel ++
      "\" must be optional as it follows an optional positional argument \"" ++
      p.metalabel ++ "\"") := by
  simp [setupStepPositional, hf, ho]

/-- Branch equation: optional positional with the tracker unset sets it. -/
theorem setupStepPositional_opt_none (st : SetupState) (d : ArgumentDefinition)
    (hf : st.foundOptionalPositional = none) (ho : d.is_optional = true) :
    setupStepPositional st d =
      .ok { st with positionals := st.positionals ++ [d],
                    foundOptionalPositional := some d } := by
  simp [setupStepPositional, hf, ho]

/-- On a positional definition the setup step takes the positional branch. -/
theorem setupStep_pos (st : SetupState) (d : ArgumentDefinition)
    (hp : d.is_positional = true) :
    setupStep st d = setupStepPositional st d := by
  simp [setupStep, hp]

/-- On a non-positional definition the setup step takes the named branch. -/
theorem setupStep_named (st : SetupState) (d : ArgumentDefinition)
    (hp : d.is_positional = false) :
    setupStep st d = setupStepNamed st d := by
  simp [setupStep, hp]

/-- The named branch of the setup step never touches the optional-positional
tracker. -/
theorem setupStepNamed_foundOpt (st st' : SetupState) (d : ArgumentDefinition)
    (h : setupStepNamed st d = .ok st') :
    st'.foundOptionalPositional = st.foundOptionalPositional := by
  unfold setupStepNamed at h
  by_cases h1 : d.is_optional = true
  · rw [if_neg (not_not_intro h1)] at h
    cases hh : recognizeHelp st d with
    | error e => rw [hh] at h; cases h
    | ok hd =>
      rw [hh] at h
      cases hins : insertNames d st.nameMap d.names with
      | error e => rw [hins] at h; cases h
      | ok m => rw [hins] at h; injection h with h; subst h; rfl
  · rw [if_pos h1] at h
    cases h

/-- A successful setup step never clears the optional-positional tracker. -/
theorem setupStep_foundOpt_mono (st st' : SetupState) (d : ArgumentDefinition)
    (h : setupStep st d = .ok st')
    (hs : st.foundOptionalPositional.isSome = true) :
    st'.foundOptionalPositional.isSome = true := by
  obtain ⟨p, hf⟩ := Option.isSome_iff_exists.mp hs
  cases hp : d.is_positional with
  | true =>
    rw [setupStep_pos st d hp] at h
    cases ho : d.is_optional with
    | true =>
      rw [setupStepPositional_opt_some st d p hf ho] at h
      injection h with h
      subst h
      exact hs
    | false =>
      rw [setupStepPositional_req_some st d p hf ho] at h
      cases h
  | false =>
    rw [setupStep_named st d hp] at h
    rw [setupStepNamed_foundOpt st st' d h]
    exact hs

/-- A required positional definition fails the setup walk when an optional
positional has already been seen. -/
theorem setupStep_req_pos_error (st : SetupState) (d : ArgumentDefinition)
    (hp : d.is_positional = true) (ho : d.is_optional = false)
    (hs : st.foundOptionalPositional.isSome = true) :
    ∃ e, setupStep st d = .error e := by
  obtain ⟨p, hf⟩ := Option.isSome_iff_exists.mp hs
  exact ⟨_, (setupStep_pos st d hp).trans (setupStepPositional_req_some st d p hf ho)⟩

/-- An optional positional definition always passes the setup step and leaves
the optional-positional tracker set. -/
theorem setupStep_opt_pos_ok (st : SetupState) (d : ArgumentDefinition)
    (hp : d.is_positional = true) (ho : d.is_optional = true) :
    ∃ st', setupStep st d = .ok st' ∧ st'.foundOptionalPositional.isSome = true := by
  cases hf : st.foundOptionalPositional with
  | some p =>
    refine ⟨{ st with positionals := st.positionals ++ [d] }, ?_, ?_⟩
    · exact (setupStep_pos st d hp).trans (setupStepPositional_opt_some st d p hf ho)
    · simp [hf]
  | none =>
    refine ⟨{ st with positionals := st.positionals ++ [d], foundOptionalPositional := some d },
      ?_, ?_⟩
    · exact (setupStep_pos st d hp).trans (setupStepPositional_opt_none st d hf ho)
    · simp

/-- Once the optional-positional tracker is set, a later required positional
definition makes the whole setup walk fail. -/
theorem setupLoop_error_from_some : ∀ (l : List ArgumentDefinition) (st : SetupState)
    (j : Nat) (dj : ArgumentDefinition),
    st.foundOptionalPositional.isSome = true → l.get? j = some dj →
    dj.is_positional = true → dj.is_optional = false →
    ∃ e, setupLoop st l = .error e := by
  intro l
  induction l with
  | nil => intro st j dj _ hj _ _; simp at hj
  | cons d rest ih =>
    intro st j dj hs hj hp ho
    cases j with
    | zero =>
      injection hj with hj
      subst hj
      obtain ⟨e, he⟩ := setupStep_req_pos_error st d hp ho hs
      refine ⟨e, ?_⟩
      unfold setupLoop
      rw [he]
    | succ j =>
      cases hstep : setupStep st d with
      | error e =>
        refine ⟨e, ?_⟩
        unfold setupLoop
        rw [hstep]
      | ok st' =>
        obtain ⟨e, he⟩ := ih st' j dj (setupStep_foundOpt_mono st st' d hstep hs) hj hp ho
        refine ⟨e, ?_⟩
        unfold setupLoop
        rw [hstep]
        exact he

/-- A definition list with a required positional after an optional positional
(in declaration order) always fails the setup walk. -/
theorem setupLoop_error_req_after_opt : ∀ (l : List ArgumentDefinition) (st : SetupState)
    (i j : Nat) (di dj : ArgumentDefinition),
    i < j → l.get? i = some di → di.is_positional = true → di.is_optional = true →
    l.get? j = some dj → dj.is_positional = true → dj.is_optional = false →
    ∃ e, setupLoop st l = .error e := by
  intro l
  induction l with
  | nil => intro st i j di dj _ hi _ _ _ _ _; simp at hi
  | cons d rest ih =>
    intro st i j di dj hij hi hpi hoi hj hpj hoj
    cases i with
    | zero =>
      injection hi with hi
      subst hi
      obtain ⟨st', hok, hsome⟩ := setupStep_opt_pos_ok st d hpi hoi
      cases j with
      | zero => omega
      | succ j =>
        obtain ⟨e, he⟩ := setupLoop_error_from_some rest st' j dj hsome hj hpj hoj
        refine ⟨e, ?_⟩
        unfold setupLoop
        rw [hok]
        exact he
    | succ i =>
      cases j with
      | zero => omega
      | succ j =>
        cases hstep : setupStep st d with
        | error e =>
          refine ⟨e, ?_⟩
          unfold setupLoop
          rw [hstep]
        | ok st' =>
          obtain ⟨e, he⟩ := ih st' i j di dj (by omega) hi hpi hoi hj hpj hoj
          refine ⟨e, ?_⟩
          unfold setupLoop
          rw [hstep]
          exact he

/-- C8: if, in declaration order, a required (non-optional) positional
definition follows an optional positional definition, then for every input
token list (and any fuel) the parse call aborts with a fatal setup error
(`ASX_FAIL`, embedded as the `.error` outcome) — the failure depends only on
the definitions, never on the input tokens, so it happens before any token is
consumed. -/
theorem c8_required_after_optional_positional (progName : String) (fuel : Nat)
    (args : List String) (defs : List ArgumentDefinition) (i j : Nat)
    (di dj : ArgumentDefinition) (hij : i < j)
    (hi : defs.get? i = some di) (hpi : di.is_positional = true) (hoi : di.is_optional = true)
    (hj : defs.get? j = some dj) (hpj : dj.is_positional = true) (hoj : dj.is_optional = false) :
    ∃ e, parse_args_no_execute_filename progName defs fuel args = .error e := by
  cases hres : resolve_argument_metalabels defs with
  | error e =>
    refine ⟨e, ?_⟩
    simp only [parse_args_no_execute_filename, parse_args_internal, hres]
  | ok rdefs =>
    have hfl := resolveMeta_get_flags 0 defs rdefs hres
    have hi' := hfl i
    have hj' := hfl j
    rw [hi] at hi'
    rw [hj] at hj'
    obtain ⟨di', hdi', hfdi'⟩ : ∃ di', rdefs.get? i = some di' ∧
        di'.is_positional = true ∧ di'.is_optional = true := by
      cases hg : rdefs.get? i with
      | none => rw [hg] at hi'; cases hi'
      | some x =>
        rw [hg] at hi'
        injection hi' with hi'
        refine ⟨x, rfl, ?_, ?_⟩
        · have := congrArg Prod.fst hi'; simpa [hpi] using this
        · have := congrArg Prod.snd hi'; simpa [hoi] using this
    obtain ⟨dj', hdj', hfdj'⟩ : ∃ dj', rdefs.get? j = some dj' ∧
        dj'.is_positional = true ∧ dj'.is_optional = false := by
      cases hg : rdefs.get? j with
      | none => rw [hg] at hj'; cases hj'
      | some x =>
        rw [hg] at hj'
        injection hj' with hj'
        refine ⟨x, rfl, ?_, ?_⟩
        · have := congrArg Prod.fst hj'; simpa [hpj] using this
        · have := congrArg Prod.snd hj'; simpa [hoj] using this
    obtain ⟨e, he⟩ := setupLoop_error_req_after_opt rdefs ⟨⟨[], 0, [], none⟩, none⟩ i j di' dj'
      hij hdi' hfdi'.1 hfdi'.2 hdj' hfdj'.1 hfdj'.2
    refine ⟨e, ?_⟩
    simp only [parse_args_no_execute_filename, parse_args_internal, setupStructures, hres, he]

/-- Witness for C8: a concrete parser whose required positional follows an
optional positional aborts for a concrete input. -/
theorem c8_required_after_optional_positional_witness :
    ∃ e, parse_args_no_execute_filename "prog" [c8OptionalPositional, c8RequiredPositional]
      3 ["x"] = .error e :=
  c8_required_after_optional_positional "prog" 3 ["x"]
    [c8OptionalPositional, c8RequiredPositional] 0 1 c8OptionalPositional c8RequiredPositional
    (by decide) rfl rfl rfl rfl rfl rfl

/-- A string starting with a nonempty literal is nonempty. -/
theorem string_append_ne_empty (a b : String) (h : a.length ≠ 0) : a ++ b ≠ "" := by
  intro hc
  have : (a ++ b).length = 0 := by rw [hc]; rfl
  rw [String.length_append] at this
  omega

/-- Resolving a single definition is idempotent: the output definition
resolves to itself under any counter value. -/
theorem resolveOne_idem (ctr : Nat) (d d' : ArgumentDefinition)
    (h : resolveOne ctr d = .ok d') :
    ∀ ctr', resolveOne ctr' d' = .ok d' := by
  intro ctr'
  unfold resolveOne at h
  split_ifs at h with h1 h2 h3 h4
  · -- names branch: metalabel := joinNames d.names
    injection h with h
    subst h
    unfold resolveOne
    split_ifs <;> rfl
  · -- label branch: metalabel := d.label ≠ ""
    injection h with h
    subst h
    unfold resolveOne
    split_ifs <;> rfl
  · -- positional branch: metalabel := "arg" ++ toString ctr ≠ ""
    injection h with h
    subst h
    unfold resolveOne
    split_ifs with g1 <;> first
      | rfl
      | (exfalso; exact string_append_ne_empty "arg" (toString ctr) (by decide) g1)
  · -- metalabel was already nonempty: unchanged (the remaining failing branch
    -- is discharged during the split)
    injection h with h
    subst h
    unfold resolveOne
    rw [if_neg h1]

/-- The resolver loop is idempotent under any counter value. -/
theorem resolveMeta_idem : ∀ (defs : List ArgumentDefinition) (ctr : Nat)
    (ds : List ArgumentDefinition), resolveMeta ctr defs = .ok ds →
    ∀ ctr', resolveMeta ctr' ds = .ok ds := by
  intro defs
  induction defs with
  | nil =>
    intro ctr ds h ctr'
    injection h with h
    subst h
    rfl
  | cons d rest ih =>
    intro ctr ds h ctr'
    unfold resolveMeta at h
    cases hro : resolveOne ctr d with
    | error e => rw [hro] at h; cases h
    | ok d' =>
      rw [hro] at h
      cases hrm : resolveMeta (if d.is_positional then ctr + 1 else ctr) rest with
      | error e => rw [hrm] at h; cases h
      | ok rest' =>
        rw [hrm] at h
        injection h with h
        subst h
        unfold resolveMeta
        rw [resolveOne_idem ctr d d' hro ctr',
            ih _ rest' hrm (if d'.is_positional then ctr' + 1 else ctr')]

/-- C9: the metalabel resolver is idempotent — if it succeeds on a definition
list, running it again on the output changes nothing (each missing metalabel
having been filled from the `'|'`-joined names, else the label, else a
synthesized `arg<N>`). -/
theorem c9_resolver_idempotent (defs ds : List ArgumentDefinition)
    (h : resolve_argument_metalabels defs = .ok ds) :
    resolve_argument_metalabels ds = .ok ds :=
  resolveMeta_idem defs 0 ds h 0

/-- Witness for C9: resolving the resolved end-to-end definitions again is a
no-op. -/
theorem c9_resolver_idempotent_witness :
    resolve_argument_metalabels
        [resolvedHelpDefinition, { nameDefinition with metalabel := "name" },
         { countDefinition with metalabel := "--count" }] =
      .ok [resolvedHelpDefinition, { nameDefinition with metalabel := "name" },
           { countDefinition with metalabel := "--count" }] :=
  c9_resolver_idempotent endToEndDefs
    [resolvedHelpDefinition, { nameDefinition with metalabel := "name" },
     { countDefinition with metalabel := "--count" }] rfl

/-- C10: the executable-path-stripping overload `parse_args(span)` reads
`_args.front()` before any emptiness check, so on the empty token list it
hits the out-of-bounds branch (`none` in the total embedding), for every
choice of the external path predicate; `parse_args_no_execute_filename`, by
contrast, handles the empty list and returns a normal success result. -/
theorem c10_parse_args_empty_front_oob (progName : String)
    (defs rdefs : List ArgumentDefinition) (su : SetupData)
    (p : String → Bool) (fuel : Nat)
    (h1 : resolve_argument_metalabels defs = .ok rdefs)
    (h2 : setupStructures rdefs = .ok su) :
    parse_args progName defs p fuel [] = none ∧
    parse_args_no_execute_filename progName defs (fuel + 1) [] =
      .ok (some (ParseResult.mk3 false false "")) := by
  constructor
  · rfl
  · have hloop : parseLoop su [] (fuel + 1) initLoopState =
        some ([], ParseResult.mk3 false false "") := rfl
    have hany : (match su.helpArgumentDefinition with
        | some hd => ([] : List String).any (fun a => hd.names.contains a)
        | none => false) = false := by
      cases su.helpArgumentDefinition <;> rfl
    simp only [parse_args_no_execute_filename, parse_args_internal, h1, h2, hany,
      Bool.false_eq_true, if_false, hloop]

/-- Witness for C10: the default parser with a trivial path predicate. -/
theorem c10_parse_args_empty_front_oob_witness :
    parse_args "prog" [helpDefinition] (fun _ => false) 0 [] = none ∧
    parse_args_no_execute_filename "prog" [helpDefinition] 1 [] =
      .ok (some (ParseResult.mk3 false false "")) :=
  c10_parse_args_empty_front_oob "prog" [helpDefinition] [resolvedHelpDefinition]
    defaultSetup (fun _ => false) 0 rfl rfl
